import Mathlib

deriving instance DecidableEq for Except

/-!
Shallow embedding of the user-management service core (functional
implementation: `src/services/userService.js`, `src/models/userModel.js`,
`src/middlewares/authMiddleware.js`, `src/controllers/userController.js`).

Strings are handled through their character lists so that every definition
reduces in the kernel; `lowerStr`, `trimStr` and `hasInfix` model the
JavaScript `toLowerCase`, `trim` and case-insensitive substring match on
the ASCII inputs the service handles.

External primitives (bcrypt, jsonwebtoken, MongoDB) are modelled
structurally:
* a bcrypt digest is a record of cost, salt and the source plaintext;
  `bcrypt.compare` succeeds exactly on the source plaintext, and digests
  produced with different salts differ (per-call random salt);
* a signed JWT is a record of its claims plus the signing secret standing
  for the signature: verification succeeds exactly when the verifying
  secret equals the signing secret and the token is not expired;
* the MongoDB collection is a list of user documents; `findOne` is
  `List.find?`, `findByIdAndUpdate` / `save` replace the document with the
  matching `_id`.  Mongoose runs schema setters (`lowercase`, `trim`) on
  both written values and query filter values, which the model applies.
-/

namespace UMS

/-- Roles of the user schema: `enum: ['student', 'instructor', 'admin']`,
`default: 'student'`. -/
inductive Role where
  | student
  | instructor
  | admin
deriving DecidableEq, Repr

/-- Wire string of a role, as stored by MongoDB. -/
def Role.str : Role → String
  | .student => "student"
  | .instructor => "instructor"
  | .admin => "admin"

/-- Parse a role string (used when an update supplies a `role` value). -/
def roleOfString (s : String) : Option Role :=
  if s = "student" then some .student
  else if s = "instructor" then some .instructor
  else if s = "admin" then some .admin
  else none

/-- `ApiError(status, message)` from `src/utils/ApiError.js`. -/
structure ApiError where
  status : Nat
  message : String
deriving DecidableEq, Repr

/-- Model of a bcrypt digest: the cost factor, the per-call random salt and
the plaintext the digest was derived from.  The `source` field stands for
the one-way image: the model never serializes it into a response, and
`bcryptCompare` is its only observer. -/
structure HashDigest where
  cost : Nat
  salt : Nat
  source : String
deriving DecidableEq, Repr

/-- Value stored in the `password` path of a user document.  A write that
goes through `save()` passes the pre-save hook and stores a bcrypt digest;
a hypothetical direct write (e.g. `findByIdAndUpdate` with a `password`
key, which bypasses the hook) would store the raw text. -/
inductive StoredCred where
  | digest : HashDigest → StoredCred
  | rawText : String → StoredCred
deriving DecidableEq, Repr

/-- Model of `bcrypt.hash(plain, saltRounds)` with the salt drawn for this
call made explicit. -/
def bcryptHash (plain : String) (cost salt : Nat) : HashDigest :=
  ⟨cost, salt, plain⟩

/-- Model of `bcrypt.compare(plain, stored)`: true exactly when `stored` is
a digest of `plain`; comparing against a non-digest string yields false. -/
def bcryptCompare (plain : String) : StoredCred → Bool
  | .digest h => plain == h.source
  | .rawText _ => false

/-- ASCII lowercasing of a string, character by character; models the
JavaScript `toLowerCase` used by the mongoose `lowercase: true` setter. -/
def lowerStr (s : String) : String :=
  String.mk (s.toList.map Char.toLower)

/-- Whitespace trimming; models `String.prototype.trim` used by the
mongoose `trim: true` setter. -/
def trimStr (s : String) : String :=
  String.mk (((s.toList.dropWhile Char.isWhitespace).reverse.dropWhile
    Char.isWhitespace).reverse)

/-- The user document of `src/models/userModel.js` (timestamps enabled). -/
structure User where
  id : Nat
  username : String
  email : String
  password : StoredCred
  role : Role
  isActive : Bool
  failedLoginAttempts : Nat
  lastLoginAt : Option Nat
  createdAt : Nat
  updatedAt : Nat
deriving DecidableEq, Repr

/-- `userSchema.methods.comparePassword`. -/
def User.comparePassword (u : User) (plain : String) : Bool :=
  bcryptCompare plain u.password

/-- JSON values appearing in serialized user objects. -/
inductive JVal where
  | jstr : String → JVal
  | jnum : Nat → JVal
  | jbool : Bool → JVal
  | jnull : JVal
deriving DecidableEq, Repr

/-- Wire form of the stored credential (the bcrypt digest string). -/
def StoredCred.str : StoredCred → String
  | .digest h => "$2b$" ++ toString h.cost ++ "$" ++ toString h.salt ++ "$" ++ h.source
  | .rawText s => s

/-- `doc.toObject({ versionKey: false })`: every schema path of the
document as a JSON field, the `password` path included. -/
def User.toObject (u : User) : List (String × JVal) :=
  [("_id", .jnum u.id),
   ("username", .jstr u.username),
   ("email", .jstr u.email),
   ("password", .jstr u.password.str),
   ("role", .jstr u.role.str),
   ("isActive", .jbool u.isActive),
   ("failedLoginAttempts", .jnum u.failedLoginAttempts),
   ("lastLoginAt", match u.lastLoginAt with | some t => .jnum t | none => .jnull),
   ("createdAt", .jnum u.createdAt),
   ("updatedAt", .jnum u.updatedAt)]

/-- `userSchema.methods.toJSON`: `toObject` followed by
`delete obj.password`; this is the serialization every response payload
containing a user goes through. -/
def User.toJSON (u : User) : List (String × JVal) :=
  u.toObject.filter (fun kv => kv.fst != "password")

/-- Keys of a serialized object. -/
def jsonKeys (o : List (String × JVal)) : List String :=
  o.map Prod.fst

/-- Process-wide configuration from `src/config/env.js`. -/
structure Env where
  jwtSecret : String
  jwtExpiresIn : Nat
  bcryptSaltRounds : Nat
deriving DecidableEq, Repr

/-- Claims carried by the tokens the service signs:
`{ sub: user.id, role: user.role }`. -/
structure JwtPayload where
  sub : Nat
  role : Role
deriving DecidableEq, Repr

/-- Model of a signed JWT: its claims, the issue/expiry instants, and the
signing secret standing for the HMAC signature. -/
structure Token where
  sub : Nat
  role : Role
  iat : Nat
  exp : Nat
  sig : String
deriving DecidableEq, Repr

/-- `jwt.sign(payload, secret, { expiresIn })` at instant `now`. -/
def jwtSign (p : JwtPayload) (secret : String) (now expiresIn : Nat) : Token :=
  ⟨p.sub, p.role, now, now + expiresIn, secret⟩

/-- `jwt.verify(token, secret)` at instant `now`: succeeds exactly when
the signature matches the secret and the token is not expired; bad
signature, malformed token and expiry are not distinguished. -/
def jwtVerify (t : Token) (secret : String) (now : Nat) : Option JwtPayload :=
  if t.sig == secret && now < t.exp then some ⟨t.sub, t.role⟩ else none

/-- `generateToken` of `src/services/userService.js`. -/
def generateToken (cfg : Env) (p : JwtPayload) (now : Nat) : Token :=
  jwtSign p cfg.jwtSecret now cfg.jwtExpiresIn

/-- The identity the auth middleware attaches to the request:
`req.user = { id: payload.sub, role: payload.role }`. -/
structure Identity where
  id : Nat
  role : Role
deriving DecidableEq, Repr

/-- Token branch of the auth middleware (`authMiddleware.js` lines 66-80):
verify the token and build `req.user` from the payload. -/
def guardIdentity (secret : String) (now : Nat) (t : Token) : Option Identity :=
  match jwtVerify t secret now with
  | some p => some ⟨p.sub, p.role⟩
  | none => none

/-- JavaScript `header.split(' ')` over the character list. -/
def splitOnSpace : List Char → List Char → List (List Char)
  | [], acc => [acc.reverse]
  | c :: cs, acc =>
    if c = ' ' then acc.reverse :: splitOnSpace cs []
    else splitOnSpace cs (c :: acc)

/-- Bearer-token extraction of the auth middleware:
`header && header.startsWith('Bearer ') ? header.split(' ')[1] : null`,
with the subsequent `if (!token)` truthiness test folded in (the empty
string is falsy, so an empty token part counts as absent). -/
def extractToken (header : Option String) : Option String :=
  match header with
  | none => none
  | some h =>
    if h.toList = [] then none
    else if ("Bearer ".toList).isPrefixOf h.toList then
      match (splitOnSpace h.toList []).get? 1 with
      | none => none
      | some t => if t = [] then none else some (String.mk t)
    else none

/-- Outcome of the auth middleware: an error passed to `next`, a null
`req.user` (optional mode without credential), or an attached identity. -/
inductive AuthOutcome where
  | failed : ApiError → AuthOutcome
  | anonymous : AuthOutcome
  | authed : Identity → AuthOutcome
deriving DecidableEq, Repr

/-- `auth(required)` middleware (`authMiddleware.js` lines 53-82); the JWT
verification it delegates to is passed as `verifyTok`. -/
def auth (required : Bool) (header : Option String)
    (verifyTok : String → Option Identity) : AuthOutcome :=
  match extractToken header with
  | none =>
    if required then .failed ⟨401, "Authentication required"⟩ else .anonymous
  | some t =>
    match verifyTok t with
    | some ident => .authed ident
    | none => .failed ⟨401, "Invalid or expired token"⟩

/-- `authorize(...roles)` middleware (`authMiddleware.js` lines 117-130);
`user` is `req.user` (`none` models a null `req.user`). -/
def authorize (roles : List Role) (user : Option Identity) : Option ApiError :=
  match user with
  | none => some ⟨401, "Authentication required"⟩
  | some ident =>
    if roles.length ≠ 0 && !(roles.contains ident.role) then
      some ⟨403, "Insufficient permissions"⟩
    else none

/-- The filter of `User.findOne({ email, isActive: true })` in `login`;
the schema `lowercase` setter is applied to the filter value. -/
def loginQuery (email : String) (u : User) : Bool :=
  u.email == lowerStr email && u.isActive

/-- `user.save()` / `findByIdAndUpdate` write-back: replace the document
with the matching `_id`. -/
def saveById (db : List User) (u : User) : List User :=
  db.map (fun v => if v.id = u.id then u else v)

/-- The 401 'Invalid credentials' error of the login flow. -/
def invalidCredentials : ApiError := ⟨401, "Invalid credentials"⟩

/-- Thrown persistence failure of `user.save()`, surfaced as a generic
500 by the error handler. -/
def persistError : ApiError := ⟨500, "persistence failure"⟩

/-- The state written on a successful credential check:
`user.lastLoginAt = new Date(); user.failedLoginAttempts = 0` (the
timestamps plugin bumps `updatedAt` on save). -/
def loginUpd (u : User) (now : Nat) : User :=
  { u with lastLoginAt := some now, failedLoginAttempts := 0, updatedAt := now }

/-- `login(email, password)` of `src/services/userService.js` (lines
17-27).  `now` is the clock reading for `new Date()`, `saveOk` the outcome
of the `user.save()` persistence step.  On success the function returns
the written-back store, `user.toJSON()`, and the signed token. -/
def login (cfg : Env) (db : List User) (email password : String)
    (now : Nat) (saveOk : Bool) :
    Except ApiError (List User × List (String × JVal) × Token) :=
  match db.find? (loginQuery email) with
  | none => .error invalidCredentials
  | some u =>
    if u.comparePassword password then
      let u2 : User := loginUpd u now
      if saveOk then
        .ok (saveById db u2, u2.toJSON,
          generateToken cfg ⟨u2.id, u2.role⟩ now)
      else .error persistError
    else .error invalidCredentials

/-- Registration body accepted by the register route (`username`, `email`,
`password`, optional `role` validated against the role enumeration). -/
structure RegisterInput where
  username : String
  email : String
  password : String
  role : Option Role
deriving DecidableEq, Repr

/-- The filter of the duplicate pre-check in `createUser`:
`User.findOne({ $or: [{ email }, { username }] })`, with the schema
setters (`lowercase`+`trim` on email, `trim` on username) applied to the
filter values. -/
def dupQuery (data : RegisterInput) (u : User) : Bool :=
  u.email == lowerStr (trimStr data.email) || u.username == trimStr data.username

/-- The document `new User(data); await user.save()` produces: schema
setters normalize `username`/`email`, the pre-save hook hashes the
password, and schema defaults fill `role`, `isActive` and
`failedLoginAttempts`. -/
def freshUser (cfg : Env) (data : RegisterInput) (newId salt now : Nat) : User :=
  { id := newId
    username := trimStr data.username
    email := lowerStr (trimStr data.email)
    password := .digest (bcryptHash data.password cfg.bcryptSaltRounds salt)
    role := data.role.getD .student
    isActive := true
    failedLoginAttempts := 0
    lastLoginAt := none
    createdAt := now
    updatedAt := now }

/-- `createUser(data)` of `src/services/userService.js` (lines 9-15):
duplicate pre-check (`findOne` over email OR username), then
`new User(data); await user.save()`.  `newId` is the `_id` MongoDB
assigns, `salt` the bcrypt salt drawn by the pre-save hook, `now` the
timestamp clock. -/
def createUser (cfg : Env) (db : List User) (data : RegisterInput)
    (newId salt now : Nat) : Except ApiError (List User × User) :=
  if (db.find? (dupQuery data)).isSome then
    .error ⟨409, "User with email or username already exists"⟩
  else
    let u : User := freshUser cfg data newId salt now
    .ok (db ++ [u], u)

/-- `getUserById(id)` of `src/services/userService.js` (lines 29-33). -/
def getUserById (db : List User) (id : Nat) : Except ApiError User :=
  match db.find? (fun u => u.id == id) with
  | some u => .ok u
  | none => .error ⟨404, "User not found"⟩

/-- A value in a request-body patch object. -/
inductive PVal where
  | pstr : String → PVal
  | pbool : Bool → PVal
  | pnum : Nat → PVal
deriving DecidableEq, Repr

/-- A patch body is a JavaScript object: a list of key/value entries. -/
abbrev Patch := List (String × PVal)

/-- Application of one update entry to a document, as
`findByIdAndUpdate` applies a known schema path (schema setters run;
entries of the wrong type or with unknown keys are ignored by the strict
schema; a `password` entry written this way bypasses the pre-save hash
hook and would store the raw text). -/
def applyField (u : User) (kv : String × PVal) : User :=
  match kv with
  | ("username", .pstr s) => { u with username := trimStr s }
  | ("email", .pstr s) => { u with email := lowerStr (trimStr s) }
  | ("password", .pstr s) => { u with password := .rawText s }
  | ("role", .pstr s) =>
    match roleOfString s with
    | some r => { u with role := r }
    | none => u
  | ("isActive", .pbool b) => { u with isActive := b }
  | ("failedLoginAttempts", .pnum n) => { u with failedLoginAttempts := n }
  | ("lastLoginAt", .pnum n) => { u with lastLoginAt := some n }
  | _ => u

/-- The allow-list of `updateMe`: `const allowed = ['username', 'email']`. -/
def allowedKeys : List String := ["username", "email"]

/-- The document produced by the `findByIdAndUpdate` of `updateMe`:
the allow-list filter `Object.entries(update).filter(([k]) =>
allowed.includes(k))` applied to the patch, the surviving entries applied
to the found document, `updatedAt` bumped by the timestamps plugin. -/
def updMeResult (update : Patch) (u : User) (now : Nat) : User :=
  { (update.filter (fun kv => allowedKeys.contains kv.fst)).foldl applyField u with
    updatedAt := now }

/-- `updateMe(userId, update)` of `src/services/userService.js` (lines
35-43): keep only the allow-listed entries of the patch, then
`findByIdAndUpdate(userId, payload, { new: true, runValidators: true })`. -/
def updateMe (db : List User) (userId : Nat) (update : Patch) (now : Nat) :
    Except ApiError (List User × User) :=
  match db.find? (fun u => u.id == userId) with
  | none => .error ⟨404, "User not found"⟩
  | some u => .ok (saveById db (updMeResult update u now), updMeResult update u now)

/-- Case-insensitive substring occurrence over character lists, modelling
`new RegExp(search, 'i')` applied to a plain search term (regex
metacharacters in the term are outside the model). -/
def hasInfix (t : List Char) : List Char → Bool
  | [] => t.isEmpty
  | c :: cs => t.isPrefixOf (c :: cs) || hasInfix t cs

/-- The query built by `listUsers`: optional role equality and optional
case-insensitive substring search over username/email. -/
def listQuery (role search : Option String) (u : User) : Bool :=
  (match role with
   | some r => u.role.str == r
   | none => true) &&
  (match search with
   | some s =>
     hasInfix (lowerStr s).toList (lowerStr u.username).toList ||
     hasInfix (lowerStr s).toList (lowerStr u.email).toList
   | none => true)

/-- Insertion step of the `sort({ createdAt: -1 })` ordering. -/
def insertByCreatedDesc (u : User) : List User → List User
  | [] => [u]
  | v :: vs =>
    if v.createdAt ≤ u.createdAt then u :: v :: vs
    else v :: insertByCreatedDesc u vs

/-- `sort({ createdAt: -1 })`: newest first. -/
def sortByCreatedDesc (l : List User) : List User :=
  l.foldr insertByCreatedDesc []

/-- Result shape of `listUsers`; `items` already serialized by the JSON
boundary (each document through `toJSON`). -/
structure ListResult where
  items : List (List (String × JVal))
  page : Nat
  limit : Nat
  total : Nat
  pages : Nat
deriving DecidableEq, Repr

/-- `listUsers({ page, limit, role, search })` of
`src/services/userService.js` (lines 55-78): filter, sort newest first,
`skip((page-1)*limit).limit(limit)`, count the matches, and compute
`pages = Math.ceil(total / limit) || 1` (for `limit ≥ 1` the natural-number
ceiling `(total + limit - 1) / limit` is `Math.ceil(total / limit)`). -/
def listUsers (db : List User) (page limit : Nat) (role search : Option String) :
    ListResult :=
  let matching := db.filter (listQuery role search)
  let skip := (page - 1) * limit
  let items := ((sortByCreatedDesc matching).drop skip).take limit
  let total := matching.length
  { items := items.map User.toJSON
    page := page
    limit := limit
    total := total
    pages := if (total + limit - 1) / limit = 0 then 1 else (total + limit - 1) / limit }

/-- The fields `updateMe` must never touch: everything outside the
`username`/`email` allow-list. -/
def frameOf (u : User) : StoredCred × Role × Bool × Nat × Option Nat :=
  (u.password, u.role, u.isActive, u.failedLoginAttempts, u.lastLoginAt)

/-! Sample configuration and store used by the witness statements. -/

/-- Sample configuration. -/
def cfgW : Env := { jwtSecret := "wsecret", jwtExpiresIn := 3600, bcryptSaltRounds := 10 }

/-- Sample active account. -/
def aliceW : User :=
  { id := 1
    username := "alice"
    email := "alice@x.com"
    password := .digest (bcryptHash "alicepass123" 10 42)
    role := .student
    isActive := true
    failedLoginAttempts := 2
    lastLoginAt := none
    createdAt := 100
    updatedAt := 100 }

/-- Sample deactivated account. -/
def bobW : User :=
  { id := 2
    username := "bob"
    email := "bob@x.com"
    password := .digest (bcryptHash "bobpass12345" 10 43)
    role := .admin
    isActive := false
    failedLoginAttempts := 0
    lastLoginAt := some 50
    createdAt := 90
    updatedAt := 95 }

/-- Sample store. -/
def dbW : List User := [aliceW, bobW]

/-- `aliceW` after a successful login at instant 200. -/
def aliceLoggedW : User := loginUpd aliceW 200

/-- The token a login of `aliceW` at instant 200 signs. -/
def tokW : Token := generateToken cfgW ⟨1, Role.student⟩ 200

/-- Sample self-update patch smuggling privileged fields next to a
legitimate username change. -/
def patchW : Patch :=
  [("username", .pstr "alice2"), ("role", .pstr "admin"),
   ("password", .pstr "evilpass123"), ("isActive", .pbool false),
   ("email", .pstr "Alice2@X.com")]

/-- Registration input whose email duplicates alice's modulo case. -/
def dupDataW : RegisterInput :=
  { username := "newname", email := "ALICE@x.com",
    password := "somepass123", role := none }

/-- Registration input free of duplicates. -/
def freshDataW : RegisterInput :=
  { username := " carol ", email := " Carol@X.com ",
    password := "carolpass123", role := none }

/-! Helper lemmas shared by the claim theorems. -/

/-- `find?` returns the element satisfying the filter when that element is
unique. -/
theorem find?_eq_some_of_unique {α : Type} (p : α → Bool) :
    ∀ (l : List α) (u : α), u ∈ l → p u = true →
      (∀ v ∈ l, p v = true → v = u) → l.find? p = some u := by
  intro l
  induction l with
  | nil => intro u h; cases h
  | cons a as ih =>
    intro u hmem hu huniq
    by_cases ha : p a = true
    · rw [List.find?_cons_of_pos _ ha]
      exact congrArg some (huniq a (List.mem_cons_self a as) ha)
    · rw [List.find?_cons_of_neg _ ha]
      rcases List.mem_cons.mp hmem with h | h
      · exact absurd (h ▸ hu) ha
      · exact ih u h hu (fun v hv hpv => huniq v (List.mem_cons_of_mem _ hv) hpv)

/-- The document written back by `saveById` is in the written store
whenever some document with its `_id` was. -/
theorem mem_saveById (db : List User) (u v : User) (hv : v ∈ db)
    (hid : v.id = u.id) : u ∈ saveById db u := by
  have h2 := List.mem_map_of_mem (fun w => if w.id = u.id then u else w) hv
  simpa [saveById, hid] using h2

/-- Inversion of a successful `login`: the password matched, persistence
succeeded, and the returned data is the written-back record and its
token. -/
theorem login_ok_inv (cfg : Env) (db : List User) (e p : String) (now : Nat)
    (saveOk : Bool) (u : User) (db' : List User) (j : List (String × JVal))
    (tok : Token)
    (hfind : db.find? (loginQuery e) = some u)
    (hok : login cfg db e p now saveOk = .ok (db', j, tok)) :
    u.comparePassword p = true ∧ saveOk = true ∧
    db' = saveById db (loginUpd u now) ∧ j = (loginUpd u now).toJSON ∧
    tok = generateToken cfg ⟨u.id, u.role⟩ now := by
  simp only [login, hfind] at hok
  by_cases hcmp : u.comparePassword p = true
  · rw [if_pos hcmp] at hok
    cases saveOk with
    | false => simp at hok
    | true =>
      simp only [if_pos] at hok
      rw [Except.ok.injEq, Prod.mk.injEq, Prod.mk.injEq] at hok
      exact ⟨hcmp, rfl, hok.1.symm, hok.2.1.symm, hok.2.2.symm⟩
  · rw [if_neg hcmp] at hok
    simp at hok

/-! Claim theorems. -/

/-- C1: a login attempt failing because the presented password does not
match the stored hash and one failing because no active account exists
for the presented email produce the identical error — status 401, message
'Invalid credentials' — so the two causes are indistinguishable to the
caller. -/
theorem login_failure_indistinguishable (cfg : Env) (db : List User)
    (e1 p1 e2 p2 : String) (t1 t2 : Nat) (s1 s2 : Bool) (u : User)
    (h1 : db.find? (loginQuery e1) = some u)
    (h2 : u.comparePassword p1 = false)
    (h3 : db.find? (loginQuery e2) = none) :
    login cfg db e1 p1 t1 s1 = .error invalidCredentials ∧
    login cfg db e2 p2 t2 s2 = .error invalidCredentials := by
  constructor
  · simp [login, h1, h2]
  · simp [login, h3]

/-- Witness for C1 on the sample store: alice with a wrong password and a
nonexistent email both fail with the same 401 'Invalid credentials'. -/
theorem login_failure_indistinguishable_witness :
    dbW.find? (loginQuery "alice@x.com") = some aliceW ∧
    aliceW.comparePassword "wrongpass" = false ∧
    dbW.find? (loginQuery "ghost@x.com") = none ∧
    login cfgW dbW "alice@x.com" "wrongpass" 200 true = .error invalidCredentials ∧
    login cfgW dbW "ghost@x.com" "whatever" 200 true = .error invalidCredentials := by
  have h := login_failure_indistinguishable cfgW dbW "alice@x.com" "wrongpass"
    "ghost@x.com" "whatever" 200 200 true true aliceW
    (by decide) (by decide) (by decide)
  exact ⟨by decide, by decide, by decide, h.1, h.2⟩

/-- C4: when every account stored under the presented (normalized) email
is deactivated, login fails — under this implementation's policy with the
same 401 'Invalid credentials' as the other failures — and never reaches
token issuance. -/
theorem login_inactive_rejected (cfg : Env) (db : List User) (e p : String)
    (now : Nat) (s : Bool)
    (h : ∀ v ∈ db, v.email = lowerStr e → v.isActive = false) :
    login cfg db e p now s = .error invalidCredentials := by
  have hnone : db.find? (loginQuery e) = none := by
    rw [List.find?_eq_none]
    intro v hv hp
    simp only [loginQuery, Bool.and_eq_true, beq_iff_eq] at hp
    rw [h v hv hp.1] at hp
    exact Bool.false_ne_true hp.2
  simp [login, hnone]

/-- Witness for C4: bob is deactivated; login with bob's correct password
still fails with 'Invalid credentials'. -/
theorem login_inactive_rejected_witness :
    (∀ v ∈ dbW, v.email = lowerStr "bob@x.com" → v.isActive = false) ∧
    login cfgW dbW "bob@x.com" "bobpass12345" 200 true = .error invalidCredentials :=
  ⟨by decide,
   login_inactive_rejected cfgW dbW "bob@x.com" "bobpass12345" 200 true (by decide)⟩

/-- C9: the login lookup applies the lowercase normalization to the
presented email, so for an active stored account (whose email is stored
lowercased) and its correct password, login finds the account and
succeeds even when the presented email differs from the stored one only
in letter case. -/
theorem login_email_case_insensitive (cfg : Env) (db : List User)
    (e p : String) (now : Nat) (u : User)
    (hmem : u ∈ db) (hemail : u.email = lowerStr e) (hact : u.isActive = true)
    (huniq : ∀ v ∈ db, v.email = lowerStr e → v = u)
    (hpw : u.comparePassword p = true) :
    db.find? (loginQuery e) = some u ∧
    (login cfg db e p now true).isOk = true := by
  have hfind : db.find? (loginQuery e) = some u := by
    apply find?_eq_some_of_unique
    · exact hmem
    · simp [loginQuery, hemail, hact]
    · intro v hv hp
      simp only [loginQuery, Bool.and_eq_true, beq_iff_eq] at hp
      exact huniq v hv hp.1
  refine ⟨hfind, ?_⟩
  simp [login, hfind, hpw, Except.isOk, Except.toBool]

/-- Witness for C9: `Alice@X.com` differs from the stored `alice@x.com`
only in case, and login succeeds. -/
theorem login_email_case_insensitive_witness :
    aliceW ∈ dbW ∧ aliceW.email = lowerStr "Alice@X.com" ∧
    aliceW.isActive = true ∧
    (∀ v ∈ dbW, v.email = lowerStr "Alice@X.com" → v = aliceW) ∧
    aliceW.comparePassword "alicepass123" = true ∧
    (dbW.find? (loginQuery "Alice@X.com") = some aliceW ∧
     (login cfgW dbW "Alice@X.com" "alicepass123" 200 true).isOk = true) :=
  ⟨by decide, by decide, by decide, by decide, by decide,
   login_email_case_insensitive cfgW dbW "Alice@X.com" "alicepass123" 200 aliceW
     (by decide) (by decide) (by decide) (by decide) (by decide)⟩

/-- C3: a successful login of an active account signs a token whose
verification, done the way the Access Guard's token branch does it (same
process-wide secret, before expiry), yields exactly the subject id and
role stored on the account at login time. -/
theorem login_token_roundtrip (cfg : Env) (db : List User) (e p : String)
    (now : Nat) (u : User) (db' : List User) (j : List (String × JVal))
    (tok : Token)
    (hfind : db.find? (loginQuery e) = some u)
    (hok : login cfg db e p now true = .ok (db', j, tok))
    (hexp : 0 < cfg.jwtExpiresIn) :
    guardIdentity cfg.jwtSecret now tok = some ⟨u.id, u.role⟩ := by
  obtain ⟨-, -, -, -, htok⟩ :=
    login_ok_inv cfg db e p now true u db' j tok hfind hok
  subst htok
  have hlt : now < now + cfg.jwtExpiresIn := Nat.lt_add_of_pos_right hexp
  simp [guardIdentity, generateToken, jwtSign, jwtVerify, hlt]

/-- Witness for C3: alice's login token verifies back to subject 1 with
role student under the signing secret. -/
theorem login_token_roundtrip_witness :
    dbW.find? (loginQuery "alice@x.com") = some aliceW ∧
    login cfgW dbW "alice@x.com" "alicepass123" 200 true =
      .ok (saveById dbW aliceLoggedW, aliceLoggedW.toJSON, tokW) ∧
    0 < cfgW.jwtExpiresIn ∧
    guardIdentity cfgW.jwtSecret 200 tokW = some ⟨1, Role.student⟩ :=
  ⟨by decide, by decide, by decide,
   login_token_roundtrip cfgW dbW "alice@x.com" "alicepass123" 200 aliceW
     (saveById dbW aliceLoggedW) aliceLoggedW.toJSON tokW
     (by decide) (by decide) (by decide)⟩

/-- C2: serialized user payloads never contain the `password` field: the
`toJSON` serialization every response goes through drops it, the user
object a successful login returns is that serialization, and every item
of a `listUsers` page is as well. -/
theorem responses_exclude_password :
    (∀ u : User, "password" ∉ jsonKeys u.toJSON) ∧
    (∀ (cfg : Env) (db : List User) (e p : String) (now : Nat) (s : Bool)
       (db' : List User) (j : List (String × JVal)) (tok : Token),
       login cfg db e p now s = .ok (db', j, tok) →
       "password" ∉ jsonKeys j) ∧
    (∀ (db : List User) (page limit : Nat) (role search : Option String)
       (item : List (String × JVal)),
       item ∈ (listUsers db page limit role search).items →
       "password" ∉ jsonKeys item) := by
  have base : ∀ u : User, "password" ∉ jsonKeys u.toJSON := by
    intro u
    simp [User.toJSON, User.toObject, jsonKeys]
  refine ⟨base, ?_, ?_⟩
  · intro cfg db e p now s db' j tok hok
    cases hfind : db.find? (loginQuery e) with
    | none => simp [login, hfind] at hok
    | some u =>
      obtain ⟨-, -, -, hj, -⟩ :=
        login_ok_inv cfg db e p now s u db' j tok hfind hok
      exact hj ▸ base (loginUpd u now)
  · intro db page limit role search item hmem
    simp only [listUsers, List.mem_map] at hmem
    obtain ⟨u, -, hu⟩ := hmem
    exact hu ▸ base u

/-- Witness for C2: alice's profile, her login payload, and a list page
item all lack the `password` key. -/
theorem responses_exclude_password_witness :
    "password" ∉ jsonKeys aliceW.toJSON ∧
    "password" ∉ jsonKeys aliceLoggedW.toJSON ∧
    "password" ∉ jsonKeys bobW.toJSON :=
  ⟨responses_exclude_password.1 aliceW,
   responses_exclude_password.2.1 cfgW dbW "alice@x.com" "alicepass123" 200 true
     (saveById dbW aliceLoggedW) aliceLoggedW.toJSON tokW (by decide),
   responses_exclude_password.2.2 dbW 1 10 none none bobW.toJSON (by decide)⟩

/-- C7: the persistence of the login bookkeeping happens before token
issuance: a login whose save step fails returns an error and never an
(ok, token) result, and a login that returns a token has written back a
record with `lastLoginAt` set to the login instant and
`failedLoginAttempts` reset to 0 — the very record the token's subject
and role come from. -/
theorem login_persist_before_token (cfg : Env) (db : List User)
    (e p : String) (now : Nat) :
    (∀ db' j tok, login cfg db e p now false ≠ .ok (db', j, tok)) ∧
    (∀ db' j tok, login cfg db e p now true = .ok (db', j, tok) →
      ∃ u2, u2 ∈ db' ∧ u2.lastLoginAt = some now ∧
        u2.failedLoginAttempts = 0 ∧ tok.sub = u2.id ∧ tok.role = u2.role) := by
  constructor
  · intro db' j tok hok
    cases hfind : db.find? (loginQuery e) with
    | none => simp [login, hfind] at hok
    | some u =>
      obtain ⟨-, hsave, -⟩ :=
        login_ok_inv cfg db e p now false u db' j tok hfind hok
      exact Bool.false_ne_true hsave
  · intro db' j tok hok
    cases hfind : db.find? (loginQuery e) with
    | none => simp [login, hfind] at hok
    | some u =>
      obtain ⟨-, -, hdb, -, htok⟩ :=
        login_ok_inv cfg db e p now true u db' j tok hfind hok
      refine ⟨loginUpd u now, ?_, rfl, rfl, ?_, ?_⟩
      · rw [hdb]
        exact mem_saveById db (loginUpd u now) u
          (List.mem_of_find?_eq_some hfind) rfl
      · rw [htok]; rfl
      · rw [htok]; rfl

/-- Witness for C7: with persistence failing, alice's login returns no
token; with persistence succeeding, the written store holds her updated
record matching the token. -/
theorem login_persist_before_token_witness :
    login cfgW dbW "alice@x.com" "alicepass123" 200 false ≠
      .ok (saveById dbW aliceLoggedW, aliceLoggedW.toJSON, tokW) ∧
    (∃ u2, u2 ∈ saveById dbW aliceLoggedW ∧ u2.lastLoginAt = some 200 ∧
      u2.failedLoginAttempts = 0 ∧ tokW.sub = u2.id ∧ tokW.role = u2.role) :=
  ⟨(login_persist_before_token cfgW dbW "alice@x.com" "alicepass123" 200).1
     (saveById dbW aliceLoggedW) aliceLoggedW.toJSON tokW,
   (login_persist_before_token cfgW dbW "alice@x.com" "alicepass123" 200).2
     (saveById dbW aliceLoggedW) aliceLoggedW.toJSON tokW (by decide)⟩

/-- An allow-listed update entry (`username` or `email`) leaves every
field outside the allow-list untouched. -/
theorem applyField_allowed_frame (u : User) (k : String) (pv : PVal)
    (h : k = "username" ∨ k = "email") :
    frameOf (applyField u (k, pv)) = frameOf u := by
  rcases h with h | h <;> subst h <;> cases pv <;> rfl

/-- Folding any sequence of allow-listed entries over a document leaves
the fields outside the allow-list untouched. -/
theorem foldl_applyField_frame :
    ∀ (l : Patch) (u : User),
      (∀ kv ∈ l, kv.fst = "username" ∨ kv.fst = "email") →
      frameOf (l.foldl applyField u) = frameOf u := by
  intro l
  induction l with
  | nil => intro u _; rfl
  | cons kv rest ih =>
    intro u h
    rw [List.foldl_cons,
      ih (applyField u kv) (fun kv' h' => h kv' (List.mem_cons_of_mem _ h'))]
    exact applyField_allowed_frame u kv.1 kv.2 (h kv (List.mem_cons_self _ _))

/-- C5: for an existing account, `updateMe` succeeds on any patch — extra
fields are not an error — and only the `username`/`email` entries are
applied: the stored `password`, `role`, `isActive`,
`failedLoginAttempts` and `lastLoginAt` are unchanged no matter what the
patch contains. -/
theorem updateMe_frame (db : List User) (userId : Nat) (patch : Patch)
    (now : Nat) (u : User)
    (hfind : db.find? (fun v => v.id == userId) = some u) :
    updateMe db userId patch now =
      .ok (saveById db (updMeResult patch u now), updMeResult patch u now) ∧
    (updMeResult patch u now).password = u.password ∧
    (updMeResult patch u now).role = u.role ∧
    (updMeResult patch u now).isActive = u.isActive ∧
    (updMeResult patch u now).failedLoginAttempts = u.failedLoginAttempts ∧
    (updMeResult patch u now).lastLoginAt = u.lastLoginAt := by
  have hmemb : ∀ kv ∈ patch.filter (fun kv => allowedKeys.contains kv.fst),
      kv.fst = "username" ∨ kv.fst = "email" := by
    intro kv hkv
    have hc := (List.mem_filter.mp hkv).2
    simpa [allowedKeys] using hc
  have hfr : frameOf (updMeResult patch u now) = frameOf u :=
    foldl_applyField_frame _ u hmemb
  simp only [frameOf, Prod.mk.injEq] at hfr
  exact ⟨by simp [updateMe, hfind], hfr.1, hfr.2.1, hfr.2.2.1,
    hfr.2.2.2.1, hfr.2.2.2.2⟩

/-- Witness for C5: a patch smuggling `role`, `password` and `isActive`
still succeeds, applies the username change, and leaves the privileged
fields as they were. -/
theorem updateMe_frame_witness :
    dbW.find? (fun v => v.id == (1 : Nat)) = some aliceW ∧
    updateMe dbW 1 patchW 300 =
      .ok (saveById dbW (updMeResult patchW aliceW 300),
           updMeResult patchW aliceW 300) ∧
    (updMeResult patchW aliceW 300).password = aliceW.password ∧
    (updMeResult patchW aliceW 300).role = aliceW.role ∧
    (updMeResult patchW aliceW 300).isActive = aliceW.isActive ∧
    (updMeResult patchW aliceW 300).username = "alice2" := by
  have h := updateMe_frame dbW 1 patchW 300 aliceW (by decide)
  exact ⟨by decide, h.1, h.2.1, h.2.2.1, h.2.2.2.1, by decide⟩

/-- C6: registration against a store already holding an account with the
same (normalized) email or username fails with the 409 duplicate error
and no ok result; against a duplicate-free store it appends exactly one
record, carrying the bcrypt digest of the presented password, role
defaulting to student when none was supplied, active state, and a zero
failure counter. -/
theorem register_requires_unique (cfg : Env) (db : List User)
    (data : RegisterInput) (newId salt now : Nat) :
    ((∃ v, v ∈ db ∧ dupQuery data v = true) →
      createUser cfg db data newId salt now =
        .error ⟨409, "User with email or username already exists"⟩) ∧
    ((∀ v ∈ db, dupQuery data v = false) →
      createUser cfg db data newId salt now =
        .ok (db ++ [freshUser cfg data newId salt now],
             freshUser cfg data newId salt now) ∧
      (freshUser cfg data newId salt now).password =
        .digest (bcryptHash data.password cfg.bcryptSaltRounds salt) ∧
      (freshUser cfg data newId salt now).role = data.role.getD .student ∧
      (data.role = none → (freshUser cfg data newId salt now).role = .student) ∧
      (freshUser cfg data newId salt now).isActive = true ∧
      (freshUser cfg data newId salt now).failedLoginAttempts = 0) := by
  constructor
  · rintro ⟨v, hv, hq⟩
    have hsome : (db.find? (dupQuery data)).isSome = true := by
      cases hfindcase : db.find? (dupQuery data) with
      | some w => rfl
      | none =>
        exact absurd hq (by simpa using List.find?_eq_none.mp hfindcase v hv)
    simp [createUser, hsome]
  · intro h
    have hnone : db.find? (dupQuery data) = none :=
      List.find?_eq_none.mpr (fun v hv => by simp [h v hv])
    refine ⟨by simp [createUser, hnone], rfl, rfl, ?_, rfl, rfl⟩
    intro hr
    simp [freshUser, hr]

/-- Witness for C6: an email duplicating alice's (modulo case) is
rejected with 409, while a fresh registration is created hashed, active,
with the default student role. -/
theorem register_requires_unique_witness :
    createUser cfgW dbW dupDataW 3 44 300 =
      .error ⟨409, "User with email or username already exists"⟩ ∧
    (createUser cfgW dbW freshDataW 3 44 300 =
      .ok (dbW ++ [freshUser cfgW freshDataW 3 44 300],
           freshUser cfgW freshDataW 3 44 300) ∧
     (freshUser cfgW freshDataW 3 44 300).password =
       .digest (bcryptHash freshDataW.password cfgW.bcryptSaltRounds 44) ∧
     (freshUser cfgW freshDataW 3 44 300).role = freshDataW.role.getD .student ∧
     (freshDataW.role = none →
       (freshUser cfgW freshDataW 3 44 300).role = .student) ∧
     (freshUser cfgW freshDataW 3 44 300).isActive = true ∧
     (freshUser cfgW freshDataW 3 44 300).failedLoginAttempts = 0) :=
  ⟨(register_requires_unique cfgW dbW dupDataW 3 44 300).1
     ⟨aliceW, by decide, by decide⟩,
   (register_requires_unique cfgW dbW freshDataW 3 44 300).2 (by decide)⟩

/-- C8: for any query with `limit ≥ 1`, the page metadata of `listUsers`
echoes the page, limit and total count of matching records, and its page
count is the ceiling of total over limit with a floor of 1 — in
particular 1 when no record matches. -/
theorem listUsers_pageCount (db : List User) (page limit : Nat)
    (role search : Option String) (hl : 1 ≤ limit) :
    (listUsers db page limit role search).pages =
      max 1 (((listUsers db page limit role search).total + limit - 1) / limit) ∧
    ((listUsers db page limit role search).total = 0 →
      (listUsers db page limit role search).pages = 1) ∧
    (listUsers db page limit role search).page = page ∧
    (listUsers db page limit role search).limit = limit ∧
    (listUsers db page limit role search).total =
      (db.filter (listQuery role search)).length := by
  refine ⟨?_, ?_, rfl, rfl, rfl⟩
  · show (if ((db.filter (listQuery role search)).length + limit - 1) / limit = 0
        then 1
        else ((db.filter (listQuery role search)).length + limit - 1) / limit) =
      max 1 (((db.filter (listQuery role search)).length + limit - 1) / limit)
    by_cases h0 : ((db.filter (listQuery role search)).length + limit - 1) / limit = 0
    · rw [if_pos h0, h0]
      decide
    · rw [if_neg h0]
      exact (Nat.max_eq_right (Nat.one_le_iff_ne_zero.mpr h0)).symm
  · intro h
    have hT : (db.filter (listQuery role search)).length = 0 := h
    have hz : ((db.filter (listQuery role search)).length + limit - 1) / limit = 0 := by
      rw [hT]
      exact Nat.div_eq_of_lt (by omega)
    show (if ((db.filter (listQuery role search)).length + limit - 1) / limit = 0
        then 1
        else ((db.filter (listQuery role search)).length + limit - 1) / limit) = 1
    rw [if_pos hz]

/-- Witness for C8 on the sample store: 2 records with limit 3 give one
page; the metadata echoes page, limit and total. -/
theorem listUsers_pageCount_witness :
    1 ≤ 3 ∧
    ((listUsers dbW 1 3 none none).pages =
      max 1 (((listUsers dbW 1 3 none none).total + 3 - 1) / 3) ∧
     ((listUsers dbW 1 3 none none).total = 0 →
       (listUsers dbW 1 3 none none).pages = 1) ∧
     (listUsers dbW 1 3 none none).page = 1 ∧
     (listUsers dbW 1 3 none none).limit = 3 ∧
     (listUsers dbW 1 3 none none).total =
       (dbW.filter (listQuery none none)).length) :=
  ⟨by decide, listUsers_pageCount dbW 1 3 none none (by decide)⟩

/-- A header that is missing, lacks the case-sensitive `Bearer ` prefix,
or has an empty token part at index 1 yields no extracted token. -/
theorem extractToken_eq_none (header : Option String)
    (h : header = none ∨ ∃ s, header = some s ∧
      (¬ (("Bearer ".toList).isPrefixOf s.toList = true) ∨
       (splitOnSpace s.toList []).get? 1 = some [])) :
    extractToken header = none := by
  rcases h with h | ⟨s, rfl, h⟩
  · rw [h]; rfl
  · simp only [extractToken]
    by_cases hemp : s.toList = []
    · rw [if_pos hemp]
    · rw [if_neg hemp]
      rcases h with h | h
      · rw [if_neg h]
      · by_cases hpre : ("Bearer ".toList).isPrefixOf s.toList = true
        · rw [if_pos hpre]
          rw [h]
          rfl
        · rw [if_neg hpre]

/-- C10: a request whose Authorization header is absent, lacks the exact
case-sensitive `Bearer ` prefix, or has an empty token part after it is
treated as carrying no credential: required mode fails with 401
'Authentication required', optional mode proceeds with a null identity,
and no such header is ever classified as an invalid or expired token —
whatever the verifier would say. -/
theorem auth_missing_credential (header : Option String)
    (h : header = none ∨ ∃ s, header = some s ∧
      (¬ (("Bearer ".toList).isPrefixOf s.toList = true) ∨
       (splitOnSpace s.toList []).get? 1 = some [])) :
    ∀ verifyTok : String → Option Identity,
      auth true header verifyTok = .failed ⟨401, "Authentication required"⟩ ∧
      auth false header verifyTok = .anonymous ∧
      ∀ required : Bool,
        auth required header verifyTok ≠ .failed ⟨401, "Invalid or expired token"⟩ := by
  intro verifyTok
  have hnone := extractToken_eq_none header h
  refine ⟨by simp [auth, hnone], by simp [auth, hnone], ?_⟩
  intro required
  cases required <;> simp [auth, hnone]

/-- Witness for C10: a `Token abc` header and a `Bearer ` header with an
empty token part are both treated as absent credentials. -/
theorem auth_missing_credential_witness :
    auth true (some "Token abc") (fun _ => none) =
      .failed ⟨401, "Authentication required"⟩ ∧
    auth false (some "Token abc") (fun _ => none) = .anonymous ∧
    auth true (some "Token abc") (fun _ => none) ≠
      .failed ⟨401, "Invalid or expired token"⟩ ∧
    auth true (some "Bearer ") (fun _ => none) =
      .failed ⟨401, "Authentication required"⟩ := by
  have h1 := auth_missing_credential (some "Token abc")
    (Or.inr ⟨"Token abc", rfl, Or.inl (by decide)⟩) (fun _ => none)
  have h2 := auth_missing_credential (some "Bearer ")
    (Or.inr ⟨"Bearer ", rfl, Or.inr (by decide)⟩) (fun _ => none)
  exact ⟨h1.1, h1.2.1, h1.2.2 true, h2.1⟩

end UMS
